import Mathlib

/-!
Verification of the schema-aware dynamic query and caching layer of the
backend-microservice repository.

The definitions below are shallow embeddings of the JavaScript source:
  - src/utils/database.js   (query builders, CRUD layer, pagination, bulk, transactions)
  - src/config/database.js  (pool query and driver-level transaction)
  - the CacheService class  (tagged cache facade over the redis wrappers)

JavaScript objects are modelled as insertion-ordered association lists, JS
values by a small scalar/array value type, machine numbers by Int/Nat, and
fallible operations by Except/outcome types.
-/

namespace DBCore

/-- Scalar JavaScript values that flow through data objects, where-condition
maps and the cache store: null, numbers (Dates are modelled as integer
timestamps) and strings. -/
inductive JsScalar where
  | snull
  | sint (i : Int)
  | sstr (s : String)
deriving Repr, DecidableEq

/-- A JavaScript value in this layer is a scalar or an array of scalars
(arrays appear as IN-lists in where maps and as tag-index entries in the
cache store). -/
inductive JsVal where
  | scalar (v : JsScalar)
  | arr (elems : List JsScalar)
deriving Repr, DecidableEq

/-- JavaScript truthiness of a scalar: null, 0 and the empty string are falsy. -/
def JsScalar.truthy : JsScalar → Bool
  | .snull => false
  | .sint i => i != 0
  | .sstr s => s != ""

/-- JavaScript truthiness of a value; arrays are always truthy. -/
def JsVal.truthy : JsVal → Bool
  | .scalar v => v.truthy
  | .arr _ => true

/-- JavaScript string coercion of a scalar, as used when a non-string value
reaches a string position (String(null) inside an array join is empty). -/
def JsScalar.jsString : JsScalar → String
  | .snull => ""
  | .sint i => toString i
  | .sstr s => s

/-- JavaScript `x + 1` on the values that can occur in a version column:
numbers increment, null coerces to 0, strings and arrays concatenate. -/
def jsPlusOne : JsVal → JsVal
  | .scalar (.sint i) => .scalar (.sint (i + 1))
  | .scalar .snull => .scalar (.sint 1)
  | .scalar (.sstr s) => .scalar (.sstr (s ++ "1"))
  | .arr elems => .scalar (.sstr (String.intercalate "," (elems.map JsScalar.jsString) ++ "1"))

/-- A JavaScript object: an insertion-ordered association list from property
names to values (objects in this codebase never hold duplicate keys). -/
abbrev JsObj := List (String × JsVal)

/-- Property read `o[k]`: some value when present, none for undefined. -/
def JsObj.lookup (o : JsObj) (k : String) : Option JsVal :=
  List.lookup k o

/-- Property write `o[k] = v`: overwrite in place when the key exists,
append at the end otherwise (JavaScript property-order semantics). -/
def JsObj.setKey : JsObj → String → JsVal → JsObj
  | [], k, v => [(k, v)]
  | (k', v') :: rest, k, v =>
      if k' = k then (k, v) :: rest else (k', v') :: JsObj.setKey rest k v

/-- Truthiness of `o[k]`: a missing property is undefined, hence falsy. -/
def JsObj.truthyAt (o : JsObj) (k : String) : Bool :=
  match o.lookup k with
  | some v => v.truthy
  | none => false

/-- Table schema as constructed by getTableSchema (database.js 84-119):
column names in ordinal order and the primary-key column list (none when the
table declares no primary key). -/
structure TableSchema where
  tableName : String
  columns : List String
  primaryKey : Option (List String)
deriving Repr, DecidableEq

/-- Column-existence test `schema.columns[key]` used throughout the layer. -/
def TableSchema.hasColumn (s : TableSchema) (c : String) : Bool :=
  s.columns.contains c

/-- hasDeletedAt flag derived in getTableSchema (database.js line 97). -/
def TableSchema.hasDeletedAt (s : TableSchema) : Bool :=
  s.columns.contains "deleted_at"

/-- hasCreatedAt flag derived in getTableSchema (database.js line 98). -/
def TableSchema.hasCreatedAt (s : TableSchema) : Bool :=
  s.columns.contains "created_at"

/-- hasUpdatedAt flag derived in getTableSchema (database.js line 99). -/
def TableSchema.hasUpdatedAt (s : TableSchema) : Bool :=
  s.columns.contains "updated_at"

/-- hasVersion flag derived in getTableSchema (database.js line 100). -/
def TableSchema.hasVersion (s : TableSchema) : Bool :=
  s.columns.contains "version"

/-- Schema filtering shared by insertRecord, updateRecord, bulkInsert and
upsertRecord: keep exactly the entries whose key is a column of the table
(unknown keys are dropped with a warning). -/
def filterToSchema (schema : TableSchema) (data : JsObj) : JsObj :=
  data.filter (fun kv => schema.hasColumn kv.1)

/-! ### Pagination metadata (paginatedQuery, database.js 545-647) -/

/-- Math.ceil(a / b) for the nonnegative total and positive validated limit
appearing in paginatedQuery. -/
def ceilDivNat (a b : Nat) : Nat :=
  (a + b - 1) / b

/-- The pagination object returned by paginatedQuery (database.js 621-632). -/
structure PaginationInfo where
  page : Int
  limit : Int
  total : Nat
  totalPages : Option Nat
  hasNextPage : Bool
  hasPrevPage : Bool
  offset : Int
deriving Repr, DecidableEq

/-- Input validation and pagination metadata of paginatedQuery
(database.js 563-565 and 621-632): clamp the page to at least 1 and the
limit into the requested maximum, then derive offset, total page count and
the next/previous flags. returnedRows is the length of the data result,
used for hasNextPage only when includeCount is false. -/
def paginate (page limit maxLimit : Int) (includeCount : Bool) (total : Nat)
    (returnedRows : Nat) : PaginationInfo :=
  let validatedPage := max 1 page
  let validatedLimit := min (max 1 limit) maxLimit
  let offset := (validatedPage - 1) * validatedLimit
  let totalPages := ceilDivNat total validatedLimit.toNat
  { page := validatedPage
    limit := validatedLimit
    total := total
    totalPages := if includeCount then some totalPages else none
    hasNextPage :=
      if includeCount then validatedPage < (totalPages : Int)
      else returnedRows == validatedLimit.toNat
    hasPrevPage := validatedPage > 1
    offset := offset }

/-! ### Soft delete (deleteRecord, database.js 825-887) -/

/-- The idempotence guard emitted by the soft-delete branch of deleteRecord
(database.js 864): the row qualifies when deleted_at IS NULL or
deleted_at > NOW(). Timestamps are integers; none models SQL NULL. -/
def softDeleteGuard (deletedAt : Option Int) (now : Int) : Bool :=
  match deletedAt with
  | none => true
  | some t => decide (now < t)

/-- Row-level effect of one soft-delete UPDATE (database.js 861-866) on the
deletion-timestamp column of a row: rows matching the caller conditions and
the guard get deleted_at = NOW, all other rows are untouched. -/
def softDeleteStep (matchesWhere : Bool) (deletedAt : Option Int) (now : Int) : Option Int :=
  if matchesWhere && softDeleteGuard deletedAt now then some now else deletedAt

/-! ### insertRecord preparation and SQL assembly (database.js 656-737) -/

/-- Timestamp auto-stamping of insertRecord and bulkInsert
(database.js 685-690, 1309-1314): add created_at and updated_at when the
schema declares them and the data has no truthy value for them. -/
def stampInsertTimestamps (schema : TableSchema) (now : JsVal) (vd : JsObj) : JsObj :=
  let vd1 := if schema.hasCreatedAt && !vd.truthyAt "created_at" then
      vd.setKey "created_at" now
    else vd
  if schema.hasUpdatedAt && !vd1.truthyAt "updated_at" then
    vd1.setKey "updated_at" now
  else vd1

/-- Column and value extraction of insertRecord (database.js 667-694): the
pre-filter empty-data check, the schema filter and the timestamp stamping.
Returns the error message thrown, or the column and value lists. -/
def insertRecordPrep (schema : TableSchema) (data : JsObj) (validate : Bool)
    (now : JsVal) : Except String (List String × List JsVal) :=
  if validate && data.isEmpty then
    .error "Insert data cannot be empty"
  else
    let validData := stampInsertTimestamps schema now (filterToSchema schema data)
    .ok (validData.map Prod.fst, validData.map Prod.snd)

/-- JavaScript truthiness of the onConflict option: null and the empty
string are falsy. -/
def optStrTruthy : Option String → Bool
  | none => false
  | some s => s != ""

/-- SQL text assembly of insertRecord (database.js 696-723): a plain
parameterized INSERT, extended with an ON CONFLICT clause only when BOTH
onConflict and conflictColumns are truthy. The updated_at rewrite of line
717 (a string replace of the just-appended DO UPDATE SET fragment) is
modelled by emitting updated_at = NOW() at the head of the update set. -/
def buildInsertSQL (schema : TableSchema) (tableName : String) (columns : List String)
    (onConflict : Option String) (conflictColumns : Option (List String))
    (returning : String) : String :=
  let placeholders := (List.range columns.length).map (fun i => "$" ++ toString (i + 1))
  let base := "INSERT INTO " ++ tableName ++ " (" ++ String.intercalate ", " columns ++
    ") VALUES (" ++ String.intercalate ", " placeholders ++ ")"
  let withConflict :=
    if optStrTruthy onConflict && conflictColumns.isSome then
      let resolved := conflictColumns.getD (schema.primaryKey.getD ["id"])
      if onConflict = some "ignore" then
        base ++ " ON CONFLICT (" ++ String.intercalate ", " resolved ++ ") DO NOTHING"
      else if onConflict = some "update" then
        let updateSet := String.intercalate ", "
          ((columns.filter (fun c => !resolved.contains c)).map
            (fun c => c ++ " = EXCLUDED." ++ c))
        if updateSet != "" then
          if schema.hasUpdatedAt then
            base ++ " ON CONFLICT (" ++ String.intercalate ", " resolved ++
              ") DO UPDATE SET updated_at = NOW(), " ++ updateSet
          else
            base ++ " ON CONFLICT (" ++ String.intercalate ", " resolved ++
              ") DO UPDATE SET " ++ updateSet
        else base
      else base
    else base
  withConflict ++ " RETURNING " ++ returning

/-- Conflict-column defaulting of upsertRecord (database.js 1360): caller
columns when given, else the primary key, else the id column. -/
def upsertResolvedConflictColumns (schema : TableSchema)
    (conflictColumns : Option (List String)) : List String :=
  conflictColumns.getD (schema.primaryKey.getD ["id"])

/-! ### updateRecord optimistic locking (database.js 747-816) -/

/-- updated_at auto-stamping of updateRecord (database.js 775-777). -/
def stampUpdatedAt (schema : TableSchema) (now : JsVal) (vd : JsObj) : JsObj :=
  if schema.hasUpdatedAt && !vd.truthyAt "updated_at" then
    vd.setKey "updated_at" now
  else vd

/-- The optimistic-locking transform of updateRecord (database.js 780-783):
when requested, the schema has a version column and the filtered data holds
a version value, copy that value into the where conditions and increment
the written one. Returns the new (data, whereConditions) pair. -/
def applyOptimisticLocking (schema : TableSchema) (optimisticLocking : Bool)
    (versionColumn : String) (validData whereConditions : JsObj) : JsObj × JsObj :=
  if optimisticLocking && schema.hasVersion && (validData.lookup versionColumn).isSome then
    let v := (validData.lookup versionColumn).getD (JsVal.scalar .snull)
    (validData.setKey versionColumn (jsPlusOne v),
     whereConditions.setKey versionColumn v)
  else (validData, whereConditions)

/-! ### advancedQuery where-clause builder (database.js 943-977) -/

/-- One step of the where-map fold in advancedQuery (database.js 946-963),
threading (clauses, params, paramIndex). Unknown unqualified columns are
skipped; arrays emit an IN list consuming one parameter per element; null
emits IS NULL consuming none; other scalars emit one equality. The emitted
placeholder text is the bare decimal paramIndex, exactly as the source
template literals produce it. -/
def advancedWhereStep (schema : TableSchema)
    (st : List String × List JsScalar × Nat) (kv : String × JsVal) :
    List String × List JsScalar × Nat :=
  let (clauses, params, paramIndex) := st
  let (key, value) := kv
  if !schema.hasColumn key && !key.contains '.' then
    (clauses, params, paramIndex)
  else
    match value with
    | .arr elems =>
        let placeholders := String.intercalate ", "
          ((List.range elems.length).map (fun i => toString (paramIndex + i)))
        (clauses ++ [key ++ " IN (" ++ placeholders ++ ")"],
         params ++ elems, paramIndex + elems.length)
    | .scalar .snull =>
        (clauses ++ [key ++ " IS NULL"], params, paramIndex)
    | .scalar (.sint i) =>
        (clauses ++ [key ++ " = " ++ toString paramIndex],
         params ++ [JsScalar.sint i], paramIndex + 1)
    | .scalar (.sstr s) =>
        (clauses ++ [key ++ " = " ++ toString paramIndex],
         params ++ [JsScalar.sstr s], paramIndex + 1)

/-- The whole where-map fold of advancedQuery, starting at paramIndex 1
(database.js 923-925, 946-963). countRecords (database.js 1201-1216) builds
its where clause with the identical logic. -/
def buildAdvancedWhere (schema : TableSchema) (whereMap : JsObj) :
    List String × List JsScalar × Nat :=
  whereMap.foldl (advancedWhereStep schema) ([], [], 1)

/-! ### bulkInsert under executeTransaction (database.js 1263-1340, 1430-1483;
config/database.js 103-157) -/

/-- Database state during a bulkInsert call. committed holds rows that are
durably committed (visible to every other connection); txnPending holds rows
written on the transaction client since its BEGIN, which COMMIT publishes
and ROLLBACK discards. -/
structure BulkDB (α : Type) where
  committed : List α
  txnPending : List α
deriving Repr, DecidableEq

/-- The batch chunking of bulkInsert (database.js 1291-1292): slices of
batchSize items (at least one per step, matching the strictly positive
batch sizes the loop is defined for). -/
def chunkListAux (batchSize : Nat) : Nat → List α → List (List α)
  | _, [] => []
  | 0, l => [l]
  | fuel + 1, x :: xs =>
      (x :: xs).take (max batchSize 1) ::
        chunkListAux batchSize fuel (xs.drop (max batchSize 1 - 1))

/-- Chunking entry point; the fuel equals the list length, which the
recursion (dropping at least one element per step) never exhausts. -/
def chunkList (batchSize : Nat) (l : List α) : List (List α) :=
  chunkListAux batchSize l.length l

/-- One item insert inside the bulkInsert loop. insertRecord runs its SQL
through the shared pool query (database.js line 725 calls query, and
config/database.js 103-105 uses the pool because no options.client is ever
passed), so a successful row insert commits immediately on its own pooled
connection, outside the open transaction; a failing row raises. fails is
the constraint-violation oracle of the database. -/
def poolInsert (fails : α → Bool) (db : BulkDB α) (row : α) :
    Except String Unit × BulkDB α :=
  if fails row then (.error "constraint violation", db)
  else (.ok (), { db with committed := db.committed ++ [row] })

/-- The inner per-batch loop of bulkInsert (database.js 1294-1324): insert
items in order, stopping at the first failure. -/
def bulkBatchLoop (fails : α → Bool) (db : BulkDB α) :
    List α → Except String Unit × BulkDB α
  | [] => (.ok (), db)
  | row :: rest =>
      match poolInsert fails db row with
      | (.ok _, db1) => bulkBatchLoop fails db1 rest
      | (.error e, db1) => (.error e, db1)

/-- The outer batch loop of bulkInsert over the chunked items. -/
def bulkBatchesLoop (fails : α → Bool) (db : BulkDB α) :
    List (List α) → Except String Unit × BulkDB α
  | [] => (.ok (), db)
  | batch :: rest =>
      match bulkBatchLoop fails db batch with
      | (.ok _, db1) => bulkBatchesLoop fails db1 rest
      | (.error e, db1) => (.error e, db1)

/-- bulkInsert end to end (database.js 1289-1328) under executeTransaction
and the driver transaction (config/database.js 136-157): BEGIN opens an
empty pending set on the transaction client, the batches run, COMMIT
publishes the pending set on success and ROLLBACK discards it on failure.
Returns the caller result and the rows committed afterwards. -/
def bulkInsertModel (fails : α → Bool) (committed0 : List α) (batchSize : Nat)
    (items : List α) : Except String Unit × List α :=
  let db0 : BulkDB α := { committed := committed0, txnPending := [] }
  match bulkBatchesLoop fails db0 (chunkList batchSize items) with
  | (.ok _, db1) => (.ok (), db1.committed ++ db1.txnPending)
  | (.error e, db1) => (.error e, db1.committed)

/-! ### Cache facade error behavior (CacheService, part_004) -/

/-- Result of one call to the external store (the redis.js wrappers):
either its value or a raised error. -/
inductive StoreOutcome (α : Type) where
  | ok (value : α)
  | failure (msg : String)
deriving Repr, DecidableEq

/-- CacheService.get (part_004 49-60): returns the looked-up value; a store
failure is caught, logged and turned into null. -/
def cacheGet (r : StoreOutcome (Option JsVal)) : Option JsVal :=
  match r with
  | .ok v => v
  | .failure _ => none

/-- CacheService.delete (part_004 65-76): returns the store result; a store
failure is caught, logged and turned into false. -/
def cacheDelete (r : StoreOutcome Bool) : Bool :=
  match r with
  | .ok b => b
  | .failure _ => false

/-- CacheService.set (part_004 24-44): performs the value write and, when
tags are non-empty, the tag-index write; a failure of either is logged and
RE-THROWN to the caller (the catch block ends in a throw). -/
def cacheSet (setRes tagWriteRes : StoreOutcome Unit) (tags : List String) :
    Except String Unit :=
  match setRes with
  | .failure m => .error m
  | .ok _ =>
      if tags.isEmpty then .ok ()
      else
        match tagWriteRes with
        | .failure m => .error m
        | .ok _ => .ok ()

/-! ### Cache store state and tag indexing (CacheService, part_004) -/

/-- The namespaced key CacheService.generateKey produces (part_004 17-19). -/
def generateCacheKey (prefixKey key : String) : String :=
  prefixKey ++ ":" ++ key

/-- Removal of a key from the external store (redis del). -/
def storeDelete (st : JsObj) (k : String) : JsObj :=
  st.filter (fun kv => kv.1 != k)

/-- Success path of CacheService.set (part_004 24-39) on the store state:
write the value under the namespaced key, then for each tag OVERWRITE that
tag index entry with the singleton array holding only the new key (the
tagKeys object is built fresh with [cacheKey] and written through
setCacheMultiple; nothing reads or extends an existing entry). -/
def cacheSetState (prefixKey : String) (st : JsObj) (key : String) (value : JsVal)
    (tags : List String) : JsObj :=
  let cacheKey := generateCacheKey prefixKey key
  let st1 := st.setKey cacheKey value
  if tags.isEmpty then st1
  else
    tags.foldl
      (fun s tag =>
        s.setKey (generateCacheKey prefixKey ("tag:" ++ tag))
          (JsVal.arr [JsScalar.sstr cacheKey]))
      st1

/-- CacheService.invalidateByTags for one tag (part_004 109-118): read the
tag index entry; when it is an array, delete every member key (members are
stored as full namespaced keys and passed to deleteCache verbatim) and then
the tag entry itself; otherwise do nothing. -/
def invalidateTag (prefixKey : String) (st : JsObj) (tag : String) : JsObj :=
  let tagKey := generateCacheKey prefixKey ("tag:" ++ tag)
  match st.lookup tagKey with
  | some (JsVal.arr keys) =>
      let st1 := keys.foldl (fun s k => storeDelete s k.jsString) st
      storeDelete st1 tagKey
  | _ => st

/-- CacheService.invalidateByTags over a tag list (part_004 107-125). -/
def invalidateByTagsState (prefixKey : String) (st : JsObj) (tags : List String) : JsObj :=
  tags.foldl (invalidateTag prefixKey) st

/-! ### executeTransaction and the driver transaction
(database.js 1430-1483; config/database.js 136-157) -/

/-- Observable trace of one driver-level transaction: statements issued on
the transaction client, whether the client was released, and the settled
driver result. -/
structure TxnTrace (α : Type) where
  events : List String
  released : Bool
  result : Except String α
deriving Repr

/-- The driver transaction of config/database.js 136-157: BEGIN, the unit
of work (its client statements abstracted as workQueries and its outcome as
work), COMMIT on success or ROLLBACK on a thrown error, and the client is
released in the finally block on both paths. -/
def transactionRun (work : Except String α) (workQueries : List String) : TxnTrace α :=
  match work with
  | .ok a =>
      { events := "BEGIN" :: workQueries ++ ["COMMIT"], released := true, result := .ok a }
  | .error e =>
      { events := "BEGIN" :: workQueries ++ ["ROLLBACK"], released := true, result := .error e }

/-- executeTransaction (database.js 1430-1483): the callback is wrapped so
an isolation level is set first when requested; the caller promise races
the driver promise against a timer with a first-settler-wins flag.
timerFirst records whether the timer fired before the driver settled; the
timer only rejects the caller promise and never touches the driver
transaction, which settles on its own. Returns the caller result and the
driver trace. -/
def executeTransactionRun (timerFirst : Bool) (timeoutMs : Int)
    (isolationLevel : Option String) (work : Except String α)
    (workQueries : List String) : Except String α × TxnTrace α :=
  let innerQueries :=
    (match isolationLevel with
     | some lvl => ["SET TRANSACTION ISOLATION LEVEL " ++ lvl]
     | none => []) ++ workQueries
  let trace := transactionRun work innerQueries
  let callerResult :=
    if 0 < timeoutMs && timerFirst then
      .error ("Transaction timeout after " ++ toString timeoutMs ++ "ms")
    else trace.result
  (callerResult, trace)

/-! ### Concrete fixtures used by witnesses and counterexamples -/

/-- A users table as in the spec scenarios: id primary key, a version
column for optimistic locking, and a name. -/
def usersSchema : TableSchema :=
  { tableName := "users", columns := ["id", "version", "name"], primaryKey := some ["id"] }

/-- A minimal table with a single column and no timestamp columns. -/
def plainSchema : TableSchema :=
  { tableName := "plain_table", columns := ["a"], primaryKey := none }

/-! ### Helper lemmas on the object and store models -/

theorem jsLookup_cons (k k1 : String) (v1 : JsVal) (rest : List (String × JsVal)) :
    JsObj.lookup ((k1, v1) :: rest) k = if k = k1 then some v1 else JsObj.lookup rest k := by
  by_cases h : k = k1
  · have hb : (k == k1) = true := by simpa using h
    simp [JsObj.lookup, List.lookup, hb, h]
  · have hb : (k == k1) = false := by simpa using h
    simp [JsObj.lookup, List.lookup, hb, h]

theorem lookup_setKey_self (o : JsObj) (k : String) (v : JsVal) :
    (o.setKey k v).lookup k = some v := by
  induction o with
  | nil => simp [JsObj.setKey, jsLookup_cons]
  | cons kv rest ih =>
      obtain ⟨k1, v1⟩ := kv
      by_cases h : k1 = k
      · subst h
        simp [JsObj.setKey, jsLookup_cons]
      · rw [JsObj.setKey, if_neg h, jsLookup_cons, if_neg (fun e => h e.symm)]
        exact ih

theorem lookup_setKey_ne (o : JsObj) (k k' : String) (v : JsVal) (h : k' ≠ k) :
    (o.setKey k v).lookup k' = o.lookup k' := by
  induction o with
  | nil =>
      rw [show JsObj.setKey [] k v = [(k, v)] from rfl, jsLookup_cons, if_neg h]
  | cons kv rest ih =>
      obtain ⟨k1, v1⟩ := kv
      by_cases h1 : k1 = k
      · subst h1
        rw [JsObj.setKey, if_pos rfl, jsLookup_cons, if_neg h, jsLookup_cons, if_neg h]
      · rw [JsObj.setKey, if_neg h1, jsLookup_cons, jsLookup_cons]
        by_cases h2 : k' = k1
        · rw [if_pos h2, if_pos h2]
        · rw [if_neg h2, if_neg h2]
          exact ih

theorem lookup_filterToSchema {s : TableSchema} {d : JsObj} {k : String} {v : JsVal}
    (h : (filterToSchema s d).lookup k = some v) : s.hasColumn k = true := by
  induction d with
  | nil => simp [filterToSchema, JsObj.lookup, List.lookup] at h
  | cons kv rest ih =>
      obtain ⟨k1, v1⟩ := kv
      by_cases hc : s.hasColumn k1 = true
      · rw [filterToSchema, List.filter_cons_of_pos (by simpa using hc)] at h
        rw [show List.filter (fun kv => s.hasColumn kv.1) rest = filterToSchema s rest from rfl] at h
        rw [jsLookup_cons] at h
        by_cases hk : k = k1
        · subst hk; exact hc
        · rw [if_neg hk] at h
          exact ih h
      · rw [filterToSchema, List.filter_cons_of_neg (by simpa using hc)] at h
        exact ih h

theorem lookup_stampUpdatedAt_ne (s : TableSchema) (now : JsVal) (d : JsObj)
    (k : String) (h : k ≠ "updated_at") :
    (stampUpdatedAt s now d).lookup k = d.lookup k := by
  rw [stampUpdatedAt]
  by_cases hc : (s.hasUpdatedAt && !d.truthyAt "updated_at") = true
  · rw [if_pos hc, lookup_setKey_ne _ _ _ _ h]
  · rw [if_neg hc]

theorem storeDelete_cons_drop {k : String} (k1 : String) (v1 : JsVal)
    (rest : List (String × JsVal)) (h : k1 = k) :
    storeDelete ((k1, v1) :: rest) k = storeDelete rest k := by
  subst h
  simp [storeDelete, List.filter_cons]

theorem storeDelete_cons_keep {k : String} (k1 : String) (v1 : JsVal)
    (rest : List (String × JsVal)) (h : ¬k1 = k) :
    storeDelete ((k1, v1) :: rest) k = (k1, v1) :: storeDelete rest k := by
  simp [storeDelete, List.filter_cons, h]

theorem lookup_storeDelete_self (st : JsObj) (k : String) :
    (storeDelete st k).lookup k = none := by
  induction st with
  | nil => simp [storeDelete, JsObj.lookup, List.lookup]
  | cons kv rest ih =>
      obtain ⟨k1, v1⟩ := kv
      by_cases h : k1 = k
      · rw [storeDelete_cons_drop k1 v1 rest h]
        exact ih
      · rw [storeDelete_cons_keep k1 v1 rest h, jsLookup_cons, if_neg (fun e => h e.symm)]
        exact ih

theorem lookup_storeDelete_absent (st : JsObj) (k k' : String)
    (h : st.lookup k = none) : (storeDelete st k').lookup k = none := by
  induction st with
  | nil => simp [storeDelete, JsObj.lookup, List.lookup]
  | cons kv rest ih =>
      obtain ⟨k1, v1⟩ := kv
      rw [jsLookup_cons] at h
      by_cases hk : k = k1
      · rw [if_pos hk] at h
        cases h
      · rw [if_neg hk] at h
        by_cases h1 : k1 = k'
        · rw [storeDelete_cons_drop k1 v1 rest h1]
          exact ih h
        · rw [storeDelete_cons_keep k1 v1 rest h1, jsLookup_cons, if_neg hk]
          exact ih h

theorem lookup_foldl_storeDelete_absent {β : Type} (f : β → String)
    (keys : List β) (st : JsObj) (k : String) (h : st.lookup k = none) :
    (keys.foldl (fun s x => storeDelete s (f x)) st).lookup k = none := by
  induction keys generalizing st with
  | nil => simpa using h
  | cons x xs ih =>
      exact ih _ (lookup_storeDelete_absent _ _ _ h)

theorem lookup_foldl_storeDelete_mem {β : Type} (f : β → String)
    (keys : List β) (st : JsObj) (k : β) (hk : k ∈ keys) :
    (keys.foldl (fun s x => storeDelete s (f x)) st).lookup (f k) = none := by
  induction keys generalizing st with
  | nil => cases hk
  | cons x xs ih =>
      rcases List.mem_cons.mp hk with h | h
      · subst h
        exact lookup_foldl_storeDelete_absent f xs _ _ (lookup_storeDelete_self st (f k))
      · exact ih _ h

theorem lookup_foldl_setKey_pres {β : Type} (g : β → String) (val : JsVal)
    (tags : List β) (st : JsObj) (k : String) (h : st.lookup k = some val) :
    (tags.foldl (fun s x => s.setKey (g x) val) st).lookup k = some val := by
  induction tags generalizing st with
  | nil => simpa using h
  | cons x xs ih =>
      by_cases hx : g x = k
      · subst hx
        exact ih _ (lookup_setKey_self st (g x) val)
      · exact ih _ ((lookup_setKey_ne st (g x) k val (Ne.symm hx)).trans h)

theorem lookup_foldl_setKey_mem {β : Type} (g : β → String) (val : JsVal)
    (tags : List β) (st : JsObj) (t : β) (ht : t ∈ tags) :
    (tags.foldl (fun s x => s.setKey (g x) val) st).lookup (g t) = some val := by
  induction tags generalizing st with
  | nil => cases ht
  | cons x xs ih =>
      rcases List.mem_cons.mp ht with h | h
      · subst h
        exact lookup_foldl_setKey_pres g val xs _ _ (lookup_setKey_self st (g t) val)
      · exact ih _ h

theorem ceilDivNat_spec (a b : Nat) (hb : 0 < b) :
    a ≤ b * ceilDivNat a b ∧ (0 < a → b * (ceilDivNat a b - 1) < a) := by
  have h := Nat.div_add_mod (a + b - 1) b
  have hr := Nat.mod_lt (a + b - 1) hb
  unfold ceilDivNat
  constructor
  · generalize hm : b * ((a + b - 1) / b) = m at h
    omega
  · intro ha
    rcases Nat.eq_zero_or_pos ((a + b - 1) / b) with h0 | h1
    · rw [h0]
      simpa using ha
    · obtain ⟨q', hq'⟩ : ∃ q', (a + b - 1) / b = q' + 1 := ⟨(a + b - 1) / b - 1, by omega⟩
      rw [hq'] at h ⊢
      simp only [Nat.add_sub_cancel]
      rw [Nat.mul_succ] at h
      generalize hm : b * q' = m at h ⊢
      omega

/-! ### Claim theorems -/

/-- Claim C1, evaluated at the failing input: bulkInsert over items 1, 2, 3
with batch size 2, where item 2 violates a constraint, reports the failure
to the caller AND leaves item 1 committed, because each insertRecord runs
on the pool connection outside the wrapping transaction. The claim that no
row of the call is committed is therefore false on the code. -/
theorem bulkInsert_partial_commit_eval :
    bulkInsertModel (fun n => n == 2) ([] : List Nat) 2 [1, 2, 3]
      = (Except.error "constraint violation", [1]) ∧
    [1] ≠ ([] : List Nat) :=
  ⟨rfl, by decide⟩

/-- Claim C2, counterexample: CacheService.set does NOT swallow a store
failure; the catch block re-throws it, so the caller receives the error. -/
theorem cacheSet_propagates_failure :
    cacheSet (StoreOutcome.failure "redis down") (StoreOutcome.ok ()) []
      = Except.error "redis down" :=
  rfl

/-- Claim C2 as amended: a store failure makes get return null and delete
return false (both swallow it), while set re-throws the failure of either
of its store writes to the caller. -/
theorem cacheFacade_failure_behavior :
    (∀ m : String, cacheGet (StoreOutcome.failure m) = none) ∧
    (∀ m : String, cacheDelete (StoreOutcome.failure m) = false) ∧
    (∀ (m : String) (tw : StoreOutcome Unit) (tags : List String),
        cacheSet (StoreOutcome.failure m) tw tags = Except.error m) ∧
    (∀ (m : String) (tags : List String), tags ≠ [] →
        cacheSet (StoreOutcome.ok ()) (StoreOutcome.failure m) tags = Except.error m) := by
  refine ⟨fun m => rfl, fun m => rfl, fun m tw tags => rfl, fun m tags h => ?_⟩
  cases tags with
  | nil => exact absurd rfl h
  | cons t ts => rfl

/-- Witness for the amended C2 theorem at concrete inputs. -/
theorem cacheFacade_failure_behavior_witness :
    cacheGet (StoreOutcome.failure "redis down") = none ∧
    cacheDelete (StoreOutcome.failure "redis down") = false ∧
    cacheSet (StoreOutcome.failure "redis down") (StoreOutcome.ok ()) ["table:users"]
      = Except.error "redis down" ∧
    cacheSet (StoreOutcome.ok ()) (StoreOutcome.failure "redis down") ["table:users"]
      = Except.error "redis down" :=
  ⟨cacheFacade_failure_behavior.1 "redis down",
   cacheFacade_failure_behavior.2.1 "redis down",
   cacheFacade_failure_behavior.2.2.1 "redis down" (StoreOutcome.ok ()) ["table:users"],
   cacheFacade_failure_behavior.2.2.2 "redis down" ["table:users"] (by decide)⟩

/-- Claim C3, evaluated at the failing input: for where a = 5, advancedQuery
emits the clause "a = 1" and pushes 5 into params. The clause text holds a
bare numeral and no dollar placeholder at all, so the bound value is never
referenced by the emitted SQL, contradicting the claim that every non-null
scalar is bound as a positional parameter placeholder. -/
theorem advancedQuery_missing_placeholder_eval :
    buildAdvancedWhere plainSchema [("a", JsVal.scalar (JsScalar.sint 5))]
      = (["a = 1"], [JsScalar.sint 5], 2) ∧
    ([JsScalar.sint 5] : List JsScalar) ≠ [] ∧
    ("$".data : List Char) = ['$'] ∧
    '$' ∉ ("a = 1").data := by
  refine ⟨rfl, by decide, rfl, by decide⟩

/-- Claim C4, counterexample: writing k1 then k2 with the same tag t leaves
the tag index entry as the singleton holding only the last key; k1 was
written with tag t, is still cached (not invalidated, no expiry), yet is
not a member of the tag index entry. -/
theorem tagIndex_overwrite_counterexample :
    (cacheSetState "app" (cacheSetState "app" [] "k1" (JsVal.scalar (JsScalar.sint 11)) ["t"])
        "k2" (JsVal.scalar (JsScalar.sint 22)) ["t"]).lookup "app:tag:t"
      = some (JsVal.arr [JsScalar.sstr "app:k2"]) ∧
    (cacheSetState "app" (cacheSetState "app" [] "k1" (JsVal.scalar (JsScalar.sint 11)) ["t"])
        "k2" (JsVal.scalar (JsScalar.sint 22)) ["t"]).lookup "app:k1"
      = some (JsVal.scalar (JsScalar.sint 11)) ∧
    JsScalar.sstr "app:k1" ∉ [JsScalar.sstr "app:k2"] := by
  refine ⟨rfl, rfl, by decide⟩

/-- Claim C5, counterexample: inserting data whose only key is not a column
of the table (a table without timestamp columns) leaves no columns after
filtering, yet insertRecord raises no empty-data error; the preparation
succeeds with empty column and value lists. -/
theorem insertPrep_no_postfilter_check :
    insertRecordPrep plainSchema [("zzz", JsVal.scalar (JsScalar.sint 1))] true
        (JsVal.scalar (JsScalar.sint 99)) = Except.ok ([], []) :=
  rfl

/-- Claim C5 as amended: insertRecord raises its empty-data error exactly
when validation is on and the incoming data object is empty BEFORE schema
filtering; when the filter leaves no columns the call does not fail with
that error. -/
theorem insertPrep_empty_check_iff (schema : TableSchema) (data : JsObj)
    (validate : Bool) (now : JsVal) :
    (∃ m, insertRecordPrep schema data validate now = Except.error m) ↔
      (validate = true ∧ data = []) := by
  rcases data with _ | ⟨kv, rest⟩ <;> cases validate <;>
    simp [insertRecordPrep, List.isEmpty]

/-- Claim C8: once a soft delete has stamped a row at time t1, a second
soft delete at any time t2 at or after t1 leaves the deletion timestamp at
t1, because the update is restricted to rows whose deleted_at is null or in
the future. -/
theorem softDelete_idempotent (d0 : Option Int) (t1 t2 : Int)
    (h1 : softDeleteGuard d0 t1 = true) (h12 : t1 ≤ t2) :
    softDeleteStep true d0 t1 = some t1 ∧
    softDeleteStep true (softDeleteStep true d0 t1) t2 = some t1 := by
  have hfirst : softDeleteStep true d0 t1 = some t1 := by
    simp [softDeleteStep, h1]
  refine ⟨hfirst, ?_⟩
  rw [hfirst]
  have hguard : softDeleteGuard (some t1) t2 = false := by
    simp [softDeleteGuard]
    omega
  simp [softDeleteStep, hguard]

/-- Witness for the C8 theorem: a fresh row soft-deleted at time 5 and
again at time 9 keeps deleted_at = 5. -/
theorem softDelete_idempotent_witness :
    softDeleteStep true none 5 = some 5 ∧
    softDeleteStep true (softDeleteStep true none 5) 9 = some 5 :=
  softDelete_idempotent none 5 9 (by decide) (by decide)

/-- Claim C10: with conflictColumns omitted (null), insertRecord emits the
same SQL as with no conflict option at all, for onConflict ignore or
update; only upsertRecord defaults the conflict columns to the primary key
(falling back to id). -/
theorem insertRecord_conflict_requires_columns (schema : TableSchema)
    (tableName returning : String) (columns : List String) (onConflict : Option String)
    (h : onConflict = some "ignore" ∨ onConflict = some "update") :
    buildInsertSQL schema tableName columns onConflict none returning
      = buildInsertSQL schema tableName columns none none returning ∧
    upsertResolvedConflictColumns schema none = schema.primaryKey.getD ["id"] := by
  constructor
  · simp [buildInsertSQL]
  · rfl

/-- Witness for the C10 theorem at onConflict = ignore on the users table. -/
theorem insertRecord_conflict_requires_columns_witness :
    buildInsertSQL usersSchema "users" ["id", "name"] (some "ignore") none "*"
      = buildInsertSQL usersSchema "users" ["id", "name"] none none "*" ∧
    upsertResolvedConflictColumns usersSchema none = usersSchema.primaryKey.getD ["id"] :=
  insertRecord_conflict_requires_columns usersSchema "users" "*" ["id", "name"]
    (some "ignore") (Or.inl rfl)

/-- Claim C6: with optimistic locking requested and a version value v in
the schema-filtered (and updated_at-stamped) data, updateRecord moves
version = v into the where conditions and writes version = v + 1. -/
theorem updateRecord_optimistic_locking (schema : TableSchema)
    (data whereConditions : JsObj) (now : JsVal) (v : Int)
    (hv : (stampUpdatedAt schema now (filterToSchema schema data)).lookup "version"
            = some (JsVal.scalar (JsScalar.sint v))) :
    (applyOptimisticLocking schema true "version"
        (stampUpdatedAt schema now (filterToSchema schema data)) whereConditions).2.lookup
        "version"
      = some (JsVal.scalar (JsScalar.sint v)) ∧
    (applyOptimisticLocking schema true "version"
        (stampUpdatedAt schema now (filterToSchema schema data)) whereConditions).1.lookup
        "version"
      = some (JsVal.scalar (JsScalar.sint (v + 1))) := by
  have hfv : (filterToSchema schema data).lookup "version"
      = some (JsVal.scalar (JsScalar.sint v)) := by
    rw [← lookup_stampUpdatedAt_ne schema now (filterToSchema schema data) "version" (by decide)]
    exact hv
  have hver : schema.hasVersion = true := lookup_filterToSchema hfv
  rw [applyOptimisticLocking, hv, hver]
  simp only [Bool.true_and, Option.isSome_some, Bool.and_true, if_true, Option.getD_some]
  exact ⟨lookup_setKey_self _ _ _, by
    rw [show jsPlusOne (JsVal.scalar (JsScalar.sint v))
          = JsVal.scalar (JsScalar.sint (v + 1)) from rfl]
    exact lookup_setKey_self _ _ _⟩

/-- Witness for the C6 theorem: updating the users row with version 3 puts
version = 3 into the where conditions and writes version = 4. -/
theorem updateRecord_optimistic_locking_witness :
    (applyOptimisticLocking usersSchema true "version"
        (stampUpdatedAt usersSchema (JsVal.scalar (JsScalar.sint 99))
          (filterToSchema usersSchema
            [("version", JsVal.scalar (JsScalar.sint 3)),
             ("name", JsVal.scalar (JsScalar.sstr "x"))]))
        [("id", JsVal.scalar (JsScalar.sint 7))]).2.lookup "version"
      = some (JsVal.scalar (JsScalar.sint 3)) ∧
    (applyOptimisticLocking usersSchema true "version"
        (stampUpdatedAt usersSchema (JsVal.scalar (JsScalar.sint 99))
          (filterToSchema usersSchema
            [("version", JsVal.scalar (JsScalar.sint 3)),
             ("name", JsVal.scalar (JsScalar.sstr "x"))]))
        [("id", JsVal.scalar (JsScalar.sint 7))]).1.lookup "version"
      = some (JsVal.scalar (JsScalar.sint (3 + 1))) :=
  updateRecord_optimistic_locking usersSchema
    [("version", JsVal.scalar (JsScalar.sint 3)), ("name", JsVal.scalar (JsScalar.sstr "x"))]
    [("id", JsVal.scalar (JsScalar.sint 7))] (JsVal.scalar (JsScalar.sint 99)) 3 (by decide)

/-- Claim C7: paginatedQuery clamps the page to at least 1 and the limit
into 1..maxLimit, reports offset = (page - 1) * limit, and with
includeCount = true reports totalPages = ceil(total / limit) (characterized
by the two ceiling inequalities), hasNextPage exactly on pages before the
last, and hasPrevPage exactly after page 1. -/
theorem paginatedQuery_pagination_correct (page limit maxLimit : Int)
    (total rows : Nat) (hmax : 1 ≤ maxLimit) :
    1 ≤ (paginate page limit maxLimit true total rows).page ∧
    (1 ≤ (paginate page limit maxLimit true total rows).limit ∧
      (paginate page limit maxLimit true total rows).limit ≤ maxLimit) ∧
    (paginate page limit maxLimit true total rows).offset
      = ((paginate page limit maxLimit true total rows).page - 1)
          * (paginate page limit maxLimit true total rows).limit ∧
    (paginate page limit maxLimit true total rows).totalPages
      = some (ceilDivNat total (paginate page limit maxLimit true total rows).limit.toNat) ∧
    (∀ tp, (paginate page limit maxLimit true total rows).totalPages = some tp →
        total ≤ (paginate page limit maxLimit true total rows).limit.toNat * tp ∧
        (0 < total →
          (paginate page limit maxLimit true total rows).limit.toNat * (tp - 1) < total)) ∧
    ((paginate page limit maxLimit true total rows).hasNextPage = true ↔
        (paginate page limit maxLimit true total rows).page
          < (ceilDivNat total (paginate page limit maxLimit true total rows).limit.toNat : Int)) ∧
    ((paginate page limit maxLimit true total rows).hasPrevPage = true ↔
        1 < (paginate page limit maxLimit true total rows).page) := by
  have hvl : (1 : Int) ≤ min (max 1 limit) maxLimit := le_min (le_max_left _ _) hmax
  have hb : 0 < (min (max 1 limit) maxLimit).toNat := by omega
  refine ⟨?_, ⟨?_, ?_⟩, ?_, ?_, ?_, ?_, ?_⟩
  · exact le_max_left 1 page
  · exact hvl
  · exact min_le_right _ _
  · rfl
  · rfl
  · intro tp htp
    have : tp = ceilDivNat total (min (max 1 limit) maxLimit).toNat := by
      simpa [paginate] using htp.symm
    subst this
    exact ceilDivNat_spec total _ hb
  · simp [paginate]
  · simp [paginate]

/-- Witness for the C7 theorem: page 0 with limit 1000 over 250 rows and
maxLimit 100 is clamped to page 1, limit 100, totalPages 3, offset 0. -/
theorem paginatedQuery_pagination_correct_witness :
    1 ≤ (paginate 0 1000 100 true 250 0).page ∧
    (1 ≤ (paginate 0 1000 100 true 250 0).limit ∧
      (paginate 0 1000 100 true 250 0).limit ≤ 100) ∧
    (paginate 0 1000 100 true 250 0).offset
      = ((paginate 0 1000 100 true 250 0).page - 1)
          * (paginate 0 1000 100 true 250 0).limit ∧
    (paginate 0 1000 100 true 250 0).totalPages
      = some (ceilDivNat 250 (paginate 0 1000 100 true 250 0).limit.toNat) ∧
    (∀ tp, (paginate 0 1000 100 true 250 0).totalPages = some tp →
        250 ≤ (paginate 0 1000 100 true 250 0).limit.toNat * tp ∧
        (0 < 250 →
          (paginate 0 1000 100 true 250 0).limit.toNat * (tp - 1) < 250)) ∧
    ((paginate 0 1000 100 true 250 0).hasNextPage = true ↔
        (paginate 0 1000 100 true 250 0).page
          < (ceilDivNat 250 (paginate 0 1000 100 true 250 0).limit.toNat : Int)) ∧
    ((paginate 0 1000 100 true 250 0).hasPrevPage = true ↔
        1 < (paginate 0 1000 100 true 250 0).page) :=
  paginatedQuery_pagination_correct 0 1000 100 250 0 (by decide)

/-- Claim C9: when the timer fires before the unit of work settles,
executeTransaction rejects the caller with the timeout error; the
underlying driver transaction is unchanged by the timer, still commits on
success and rolls back on a thrown error, and the connection is always
released. -/
theorem executeTransaction_timeout_advisory {α : Type} (timeoutMs : Int)
    (iso : Option String) (work : Except String α) (qs : List String)
    (ht : 0 < timeoutMs) :
    (executeTransactionRun true timeoutMs iso work qs).1
      = Except.error ("Transaction timeout after " ++ toString timeoutMs ++ "ms") ∧
    (executeTransactionRun true timeoutMs iso work qs).2
      = (executeTransactionRun false timeoutMs iso work qs).2 ∧
    (∀ a, work = Except.ok a →
        (executeTransactionRun true timeoutMs iso work qs).2.result = Except.ok a ∧
        (executeTransactionRun true timeoutMs iso work qs).2.events.getLast? = some "COMMIT") ∧
    (∀ e, work = Except.error e →
        (executeTransactionRun true timeoutMs iso work qs).2.events.getLast?
          = some "ROLLBACK") ∧
    (executeTransactionRun true timeoutMs iso work qs).2.released = true := by
  refine ⟨?_, rfl, ?_, ?_, ?_⟩
  · simp [executeTransactionRun, ht]
  · intro a ha
    subst ha
    refine ⟨rfl, ?_⟩
    show ("BEGIN" :: (_ ++ qs) ++ ["COMMIT"]).getLast? = some "COMMIT"
    rw [List.getLast?_concat]
  · intro e he
    subst he
    show ("BEGIN" :: (_ ++ qs) ++ ["ROLLBACK"]).getLast? = some "ROLLBACK"
    rw [List.getLast?_concat]
  · cases work <;> rfl

/-- Witness for the C9 theorem: a 60 second timeout firing first rejects
the caller while the driver transaction of a successful unit of work still
commits and releases its connection. -/
theorem executeTransaction_timeout_advisory_witness :
    (executeTransactionRun true 60000 none (Except.ok (7 : Nat)) []).1
      = Except.error ("Transaction timeout after " ++ toString (60000 : Int) ++ "ms") ∧
    (executeTransactionRun true 60000 none (Except.ok (7 : Nat)) []).2
      = (executeTransactionRun false 60000 none (Except.ok (7 : Nat)) []).2 ∧
    (∀ a : Nat, (Except.ok 7 : Except String Nat) = Except.ok a →
        (executeTransactionRun true 60000 none (Except.ok (7 : Nat)) []).2.result
          = Except.ok a ∧
        (executeTransactionRun true 60000 none (Except.ok (7 : Nat)) []).2.events.getLast?
          = some "COMMIT") ∧
    (∀ e : String, (Except.ok 7 : Except String Nat) = Except.error e →
        (executeTransactionRun true 60000 none (Except.ok (7 : Nat)) []).2.events.getLast?
          = some "ROLLBACK") ∧
    (executeTransactionRun true 60000 none (Except.ok (7 : Nat)) []).2.released = true :=
  executeTransaction_timeout_advisory 60000 none (Except.ok 7) [] (by decide)

/-- Claim C4 as amended: set with non-empty tags REPLACES each given tag
index entry with the singleton array holding only the newly written key, so
a tag index names just the most recent key written with that tag; and
invalidateByTags deletes every key listed in a tag index entry and then the
tag entry itself. -/
theorem tagIndex_singleton_and_invalidate :
    (∀ (prefixKey : String) (st : JsObj) (key : String) (value : JsVal)
        (tags : List String) (tag : String), tag ∈ tags →
        (cacheSetState prefixKey st key value tags).lookup
            (generateCacheKey prefixKey ("tag:" ++ tag))
          = some (JsVal.arr [JsScalar.sstr (generateCacheKey prefixKey key)])) ∧
    (∀ (prefixKey : String) (st : JsObj) (tag : String) (keys : List JsScalar),
        st.lookup (generateCacheKey prefixKey ("tag:" ++ tag)) = some (JsVal.arr keys) →
        (invalidateTag prefixKey st tag).lookup (generateCacheKey prefixKey ("tag:" ++ tag))
            = none ∧
          ∀ k ∈ keys, (invalidateTag prefixKey st tag).lookup k.jsString = none) := by
  constructor
  · intro p st key value tags tag ht
    have hne : tags.isEmpty = false := by
      cases tags with
      | nil => cases ht
      | cons t ts => rfl
    simp only [cacheSetState, hne, Bool.false_eq_true, if_false]
    exact lookup_foldl_setKey_mem (fun t => generateCacheKey p ("tag:" ++ t))
      (JsVal.arr [JsScalar.sstr (generateCacheKey p key)]) tags _ tag ht
  · intro p st tag keys hk
    simp only [invalidateTag, hk]
    constructor
    · exact lookup_storeDelete_self _ _
    · intro k hkm
      exact lookup_storeDelete_absent _ _ _
        (lookup_foldl_storeDelete_mem JsScalar.jsString keys st k hkm)

/-- Witness for the amended C4 theorem: one tagged write creates the
singleton index entry, and invalidating a tag with a one-member index
removes both that member and the index entry. -/
theorem tagIndex_singleton_and_invalidate_witness :
    (cacheSetState "app" [] "k1" (JsVal.scalar (JsScalar.sint 11)) ["t"]).lookup
        (generateCacheKey "app" ("tag:" ++ "t"))
      = some (JsVal.arr [JsScalar.sstr (generateCacheKey "app" "k1")]) ∧
    ((invalidateTag "app"
          [(generateCacheKey "app" ("tag:" ++ "t"), JsVal.arr [JsScalar.sstr "app:k1"]),
           ("app:k1", JsVal.scalar (JsScalar.sint 11))] "t").lookup
          (generateCacheKey "app" ("tag:" ++ "t"))
        = none ∧
      ∀ k ∈ [JsScalar.sstr "app:k1"],
        (invalidateTag "app"
            [(generateCacheKey "app" ("tag:" ++ "t"), JsVal.arr [JsScalar.sstr "app:k1"]),
             ("app:k1", JsVal.scalar (JsScalar.sint 11))] "t").lookup k.jsString = none) :=
  ⟨tagIndex_singleton_and_invalidate.1 "app" [] "k1" (JsVal.scalar (JsScalar.sint 11))
      ["t"] "t" (by decide),
   tagIndex_singleton_and_invalidate.2 "app"
      [(generateCacheKey "app" ("tag:" ++ "t"), JsVal.arr [JsScalar.sstr "app:k1"]),
       ("app:k1", JsVal.scalar (JsScalar.sint 11))] "t" [JsScalar.sstr "app:k1"]
      (by decide)⟩

end DBCore
